import Mathlib

/-!
Shallow embedding of the rule-based credit-risk scoring engine of
`pygroupf` (`pygroupf/analysis.py`, class `DataAnalyzer`), together with
theorems checking the natural-language specification against it.

Field values are either Python ints or strings (the only value kinds the
pipeline produces); Python exceptions relevant to the analyzer are
`TypeError`, `KeyError` and `AssertionError`, and fallible evaluation is
modelled with `Except`.
-/

namespace Pygroupf

/-- A record/field value: the cleaned pipeline feeds the analyzer integers
and strings only. Mirrors Python dynamic values as used by `analysis.py`. -/
inductive Value where
  | int : Int → Value
  | str : String → Value
deriving DecidableEq, Repr

/-- The Python exceptions the analyzer's code paths can raise:
`TypeError` (ill-typed comparison or call), `KeyError` (failed lookup,
e.g. `row[name]` for a missing column) and `AssertionError` (the
`assert` statements). -/
inductive PyErr where
  | typeError
  | keyError
  | assertionError
deriving DecidableEq, Repr

/-- Python `value > threshold` where the threshold in every configured rule
is an int: int-to-int compares numerically, a string compared to an int
raises `TypeError`. -/
def pyGtInt (v : Value) (t : Int) : Except PyErr Bool :=
  match v with
  | .int x => .ok (decide (x > t))
  | .str _ => .error .typeError

/-- Association-list lookup modelling Python `dict.get` / `in` on a
scoring dict keyed by values. -/
def lookupVal (m : List (Value × Int)) (v : Value) : Option Int :=
  match m with
  | [] => none
  | (k, s) :: rest => if k = v then some s else lookupVal rest v

/-- One entry of a numeric range rule: the Python dict may carry a
`condition` predicate and/or a `threshold`, plus a `score`.
The predicate is a Python callable and may raise. -/
structure RangeEntry where
  condition : Option (Value → Except PyErr Bool)
  threshold : Option Int
  score : Int

/-- A per-field rule specification as `calculate_field_score` dispatches on
it structurally: a list (range rules), a dict containing key `default`
(default function plus `specific` overrides), any other dict (direct
value-to-score mapping), or any other Python object (`other`), which the
code lets fall through to `return 0`. -/
inductive FieldRules where
  | rlist : List RangeEntry → FieldRules
  | withDefault : (Value → Except PyErr Int) → List (Value × Int) → FieldRules
  | mapping : List (Value × Int) → FieldRules
  | other : FieldRules

/-- First-match loop over range-rule entries, mirroring the `for rule in
rules` loop of `calculate_field_score`: try `condition` (if present), then
`value > threshold` (if present); return the entry's score on the first
hit, 0 when the list is exhausted. Errors raised by a predicate or by an
ill-typed comparison propagate. -/
def rangeLoop (v : Value) : List RangeEntry → Except PyErr Int
  | [] => .ok 0
  | e :: rest => do
    let condHit ←
      match e.condition with
      | some c => c v
      | none => pure false
    if condHit then
      pure e.score
    else
      let thrHit ←
        match e.threshold with
        | some t => pyGtInt v t
        | none => pure false
      if thrHit then pure e.score else rangeLoop v rest

/-- Evaluation of one rule shape on a value: the body of
`calculate_field_score` after the `scoring_rules.get(field_name, {})`
lookup. The `withDefault` branch checks `specific` first, then calls the
default function inside `try/except (TypeError, KeyError)` falling back to
`specific.get(0, 0)`. -/
def evalRules (rules : FieldRules) (v : Value) : Except PyErr Int :=
  match rules with
  | .rlist entries => rangeLoop v entries
  | .withDefault dflt specific =>
    match lookupVal specific v with
    | some s => .ok s
    | none =>
      match dflt v with
      | .ok s => .ok s
      | .error .typeError => .ok ((lookupVal specific (.int 0)).getD 0)
      | .error .keyError => .ok ((lookupVal specific (.int 0)).getD 0)
      | .error e => .error e
  | .mapping m => .ok ((lookupVal m v).getD 0)
  | .other => .ok 0

/-- Association-list lookup for the scoring-rules dict (field name to rule
spec) and for rows (column name to value). -/
def listLookup {α : Type} (l : List (String × α)) (k : String) : Option α :=
  match l with
  | [] => none
  | (k', x) :: rest => if k' = k then some x else listLookup rest k

/-- A pandas row as the analyzer reads it: ordered association list from
column name to value. -/
abbrev Row := List (String × Value)

/-- A DataFrame as the analyzer uses it: the list of rows in index order,
with the default range index 0, 1, ... (row `i` has index `i`). -/
abbrev DataFrame := List Row

/-- Python `field_name.lower().replace(" ", "_")` character by character. -/
def normChar (c : Char) : Char :=
  if c = ' ' then '_' else c.toLower

/-- Field-name normalization used by `calculate_risk_score`:
`field_name.lower().replace(" ", "_")`. -/
def normalize (s : String) : String :=
  String.mk (s.data.map normChar)

/-- Python `sorted(risk_levels, key=lambda x: x[0], reverse=True)`:
the stable descending sort by threshold (equal thresholds keep their
original relative order), i.e. stable insertion sort under the
greater-or-equal-threshold relation. -/
def pySortDesc (l : List (Int × String)) : List (Int × String) :=
  l.insertionSort (fun x y => x.1 ≥ y.1)

/-- The analyzer state after `__init__`: the stored table, the
scoring-rules dict (insertion-ordered), and the tier list already sorted
descending by threshold. -/
structure Analyzer where
  data : DataFrame
  scoring_rules : List (String × FieldRules)
  risk_levels : List (Int × String)

/-- Embeds `DataAnalyzer.__init__`: asserts the tier list is non-empty, then
stores the data and rules and sorts the tiers descending by threshold. -/
def mkAnalyzer (data : DataFrame) (scoring_rules : List (String × FieldRules))
    (risk_levels : List (Int × String)) : Except PyErr Analyzer :=
  if risk_levels.isEmpty then .error .assertionError
  else .ok ⟨data, scoring_rules, pySortDesc risk_levels⟩

/-- Embeds `DataAnalyzer.calculate_field_score`: look the field up in
`scoring_rules` with default `{}` (an empty dict, i.e. an empty direct
mapping) and evaluate the rule shape on the value. -/
def calculateFieldScore (a : Analyzer) (field_name : String) (v : Value) :
    Except PyErr Int :=
  evalRules ((listLookup a.scoring_rules field_name).getD (.mapping [])) v

/-- The accumulation loop of `calculate_risk_score`: for each configured
field in dict order, read `row[normalized_name]` (a missing column raises
`KeyError`) and add `calculate_field_score` of the value. -/
def sumFieldScores (a : Analyzer) (row : Row) :
    List (String × FieldRules) → Except PyErr Int
  | [] => .ok 0
  | (field_name, _) :: rest => do
    let v ←
      match listLookup row (normalize field_name) with
      | some v => pure v
      | none => Except.error PyErr.keyError
    let s ← calculateFieldScore a field_name v
    let r ← sumFieldScores a row rest
    pure (s + r)

/-- Embeds `DataAnalyzer.calculate_risk_score`: assert the row is non-empty, sum
the per-field scores over the configured fields, clamp to [0, 100] with
`min(max(score, 0), 100)`. -/
def calculateRiskScore (a : Analyzer) (row : Row) : Except PyErr Int :=
  if row.isEmpty then .error .assertionError
  else do
    let s ← sumFieldScores a row a.scoring_rules
    pure (min (max s 0) 100)

/-- The classification loop of `determine_risk_level`: walk the stored
(descending-sorted) tier list, returning the first label whose threshold
is at most the score, or `"Unknown"`. -/
def levelLoop (score : Int) : List (Int × String) → String
  | [] => "Unknown"
  | (threshold, level) :: rest =>
    if score ≥ threshold then level else levelLoop score rest

/-- Embeds `DataAnalyzer.determine_risk_level`: assert `0 <= score <= 100`, then
run the classification loop over the stored tiers. -/
def determineRiskLevel (a : Analyzer) (score : Int) : Except PyErr String :=
  if 0 ≤ score ∧ score ≤ 100 then .ok (levelLoop score a.risk_levels)
  else .error .assertionError

/-- Column names of a DataFrame (keys of the first row; pandas keeps one
column set for all rows). -/
def dfColumns (df : DataFrame) : List String :=
  match df with
  | [] => []
  | r :: _ => r.map Prod.fst

/-- pandas `df.empty`: true when the frame has no rows or no columns. -/
def dfEmpty (df : DataFrame) : Bool :=
  match df with
  | [] => true
  | r :: _ => r.isEmpty

/-- pandas column assignment on one row: overwrite the entry in place when
the column exists, otherwise append it at the end. -/
def rowSet (row : Row) (name : String) (v : Value) : Row :=
  if row.any (fun p => p.1 = name) then
    row.map (fun p => if p.1 = name then (name, v) else p)
  else row ++ [(name, v)]

/-- pandas `df[name] = values`: set the column across all rows (the
series is index-aligned; all our frames use the default range index). -/
def setCol (df : DataFrame) (name : String) (vals : List Value) : DataFrame :=
  (df.zip vals).map (fun p => rowSet p.1 name p.2)

/-- Row lookup with pandas' first-occurrence semantics, defaulting for
the (never reached under well-formedness) missing-column case. -/
def rowGetD (row : Row) (name : String) : Value :=
  (listLookup row name).getD (.int 0)

/-- Error-propagating map over a list, mirroring pandas `apply`: the
first raising element aborts the whole call. -/
def mapExcept {α β : Type} (f : α → Except PyErr β) : List α → Except PyErr (List β)
  | [] => .ok []
  | x :: xs => do
    let y ← f x
    let ys ← mapExcept f xs
    pure (y :: ys)

/-- Embeds `DataAnalyzer.generate_risk_report`: assert the stored table is
non-empty; on the alias `report_df = self.data` assign `customer_id`
(index + 1), `risk_score` (`apply(calculate_risk_score, axis=1)`) and
`risk_level` (applied to the `risk_score` column); finally return
`report_df[cols]` with `customer_id` moved to the front. The result pairs
the mutated stored table with the returned reordered frame. -/
def generateRiskReport (a : Analyzer) : Except PyErr (DataFrame × DataFrame) :=
  if dfEmpty a.data then .error .assertionError
  else do
    let d1 := setCol a.data "customer_id"
      ((List.range a.data.length).map (fun i : Nat => .int (i + 1)))
    let scores ← mapExcept (fun r => calculateRiskScore a r) d1
    let d2 := setCol d1 "risk_score" (scores.map Value.int)
    let levels ← mapExcept (fun s => determineRiskLevel a s) scores
    let d3 := setCol d2 "risk_level" (levels.map Value.str)
    let cols := "customer_id" :: (dfColumns d3).filter (fun c => c ≠ "customer_id")
    let ret := d3.map (fun r => cols.map (fun c => (c, rowGetD r c)))
    pure (d3, ret)

/-! ## The example configuration

The scoring rules and risk levels defined at module level in
`src/pygroupf/analysis.py` (lines 142-189), used by the end-to-end
claims. Each Python lambda is embedded with its exact behavior on ints
and its `TypeError` on strings (Python `str < int` comparisons raise). -/

/-- Age condition 1, `lambda x: x < 20 or x > 70`. -/
def ageCond1 (v : Value) : Except PyErr Bool :=
  match v with
  | .int x => .ok (decide (x < 20) || decide (x > 70))
  | .str _ => .error .typeError

/-- Age condition 2, `lambda x: 20 <= x < 25 or 60 < x <= 70`. -/
def ageCond2 (v : Value) : Except PyErr Bool :=
  match v with
  | .int x => .ok ((decide (20 ≤ x) && decide (x < 25)) || (decide (60 < x) && decide (x ≤ 70)))
  | .str _ => .error .typeError

/-- Age condition 3, `lambda x: 25 <= x < 30 or 50 < x <= 60`. -/
def ageCond3 (v : Value) : Except PyErr Bool :=
  match v with
  | .int x => .ok ((decide (25 ≤ x) && decide (x < 30)) || (decide (50 < x) && decide (x ≤ 60)))
  | .str _ => .error .typeError

/-- Default of the `Saving accounts` rule, `lambda x: (4 - x) * 3 if x > 0 else 10`. -/
def savingDefault (v : Value) : Except PyErr Int :=
  match v with
  | .int x => .ok (if x > 0 then (4 - x) * 3 else 10)
  | .str _ => .error .typeError

/-- Default of the `Checking account` rule, `lambda x: (3 - x) * 4 if x > 0 else 10`. -/
def checkingDefault (v : Value) : Except PyErr Int :=
  match v with
  | .int x => .ok (if x > 0 then (3 - x) * 4 else 10)
  | .str _ => .error .typeError

/-- The module-level `scoring_rules` dict, in insertion order. -/
def exampleRules : List (String × FieldRules) :=
  [("Age", .rlist
      [⟨some ageCond1, none, 15⟩, ⟨some ageCond2, none, 10⟩, ⟨some ageCond3, none, 5⟩]),
   ("Sex", .mapping [(.str "male", 2), (.str "female", 0), (.str "unknown", 1)]),
   ("Job", .mapping [(.int 0, 15), (.int 1, 10), (.int 2, 5), (.int 3, 1)]),
   ("Housing", .mapping [(.int 0, 15), (.int 1, 10), (.int 2, 5)]),
   ("Saving accounts", .withDefault savingDefault [(.int 0, 10)]),
   ("Checking account", .withDefault checkingDefault [(.int 0, 10)]),
   ("Credit amount", .rlist
      [⟨none, some 8000, 15⟩, ⟨none, some 5000, 10⟩, ⟨none, some 2000, 5⟩]),
   ("Duration", .rlist
      [⟨none, some 36, 15⟩, ⟨none, some 24, 10⟩, ⟨none, some 12, 5⟩]),
   ("Purpose", .mapping
      [(.str "business", 10), (.str "education", 10), (.str "unknown", 8),
       (.str "car", 5), (.str "furniture/equipment", 5), (.str "radio/TV", 3),
       (.str "domestic appliances", 3), (.str "repairs", 3), (.str "vacation/others", 3)])]

/-- The module-level `risk_levels` list. -/
def exampleLevels : List (Int × String) :=
  [(70, "High risk"), (50, "Medium-high risk"), (30, "Medium-low risk"), (0, "Low risk")]

/-- The end-to-end test record of the spec, with normalized field names. -/
def exampleRow : Row :=
  [("age", .int 45), ("sex", .str "male"), ("job", .int 2), ("housing", .int 2),
   ("saving_accounts", .int 1), ("checking_account", .int 1),
   ("credit_amount", .int 3000), ("duration", .int 18), ("purpose", .str "car")]

/-- An analyzer holding the example configuration over a one-row table. -/
def exampleAnalyzer : Analyzer :=
  ⟨[exampleRow], exampleRules, pySortDesc exampleLevels⟩

/-- Decidable equality on `Except` results, for evaluating the embedding
on concrete inputs. -/
instance {ε α : Type} [DecidableEq ε] [DecidableEq α] : DecidableEq (Except ε α) :=
  fun a b =>
    match a, b with
    | .ok x, .ok y =>
      if h : x = y then .isTrue (by rw [h])
      else .isFalse (by intro he; exact h (Except.ok.inj he))
    | .ok _, .error _ => .isFalse (by intro he; cases he)
    | .error _, .ok _ => .isFalse (by intro he; cases he)
    | .error e, .error e' =>
      if h : e = e' then .isTrue (by rw [h])
      else .isFalse (by intro he; exact h (Except.error.inj he))

/-- Match test of one range-rule entry, fusing the `if`/`elif` of the
loop body: the condition (when present) is evaluated first and decides on
a hit; otherwise the threshold comparison (when present) decides; an
entry with neither never matches. Errors of either test propagate. -/
def entryMatches (e : RangeEntry) (v : Value) : Except PyErr Bool :=
  match e.condition with
  | some c => do
    let b ← c v
    if b then pure true
    else
      match e.threshold with
      | some t => pyGtInt v t
      | none => pure false
  | none =>
    match e.threshold with
    | some t => pyGtInt v t
    | none => pure false

/-- Analyzer used to witness C4: the `specific` mapping sends 1 to 7 while
the default function would return 99 for every value. -/
def overrideAnalyzer : Analyzer :=
  ⟨[], [("Kind", .withDefault (fun _ => .ok 99) [(.int 1, 7)])], pySortDesc exampleLevels⟩

/-- Analyzer used to witness C8: one configured field,
`Credit amount`, whose normalized name `credit_amount` the record lacks. -/
def missAnalyzer : Analyzer :=
  ⟨[], [("Credit amount", .rlist [⟨none, some 2000, 5⟩])], pySortDesc exampleLevels⟩

/-- Formalization of the specification's description of the stored table
after report generation: every original row, in order, with the synthetic
`customer_id` (1-based position), the clamped `risk_score` and the
classified `risk_level` appended at the end. -/
def specStoredReport (a : Analyzer) (scores : List Int) : DataFrame :=
  (List.range a.data.length).map (fun i : Nat =>
    a.data.getD i [] ++
      [("customer_id", Value.int (i + 1)),
       ("risk_score", Value.int (scores.getD i 0)),
       ("risk_level", Value.str (levelLoop (scores.getD i 0) a.risk_levels))])

/-- Formalization of the specification's description of the returned
report: the same rows with the `customer_id` column moved to the front
and `risk_score`/`risk_level` appended. -/
def specReturnedReport (a : Analyzer) (scores : List Int) : DataFrame :=
  (List.range a.data.length).map (fun i : Nat =>
    ("customer_id", Value.int (i + 1)) ::
      (a.data.getD i [] ++
        [("risk_score", Value.int (scores.getD i 0)),
         ("risk_level", Value.str (levelLoop (scores.getD i 0) a.risk_levels))]))

/-- Witness analyzer for the report claims: two one-column rows scored by
the example `Age` rule (45 scores 0, 75 scores 15). -/
def reportAnalyzer : Analyzer :=
  ⟨[[("age", .int 45)], [("age", .int 75)]],
   [("Age", .rlist
      [⟨some ageCond1, none, 15⟩, ⟨some ageCond2, none, 10⟩, ⟨some ageCond3, none, 5⟩])],
   pySortDesc exampleLevels⟩

/-! ## Helper lemmas -/

/-- A non-empty row fails the `row.empty` assertion guard negatively. -/
lemma isEmpty_false_of_ne_nil {α : Type} {l : List α} (h : l ≠ []) :
    l.isEmpty = false := by
  simp [List.isEmpty_iff, h]

/-- With a successful field-score sum, `calculate_risk_score` returns its
clamp. -/
lemma riskScore_of_sum {a : Analyzer} {row : Row} {s : Int}
    (hrow : row ≠ []) (hsum : sumFieldScores a row a.scoring_rules = .ok s) :
    calculateRiskScore a row = .ok (min (max s 0) 100) := by
  unfold calculateRiskScore
  rw [isEmpty_false_of_ne_nil hrow]
  rw [hsum]
  rfl

/-- Every successful result of `calculate_risk_score` lies in [0, 100]. -/
lemma riskScore_bounds {a : Analyzer} {row : Row} {t : Int}
    (h : calculateRiskScore a row = .ok t) : 0 ≤ t ∧ t ≤ 100 := by
  unfold calculateRiskScore at h
  by_cases he : row.isEmpty
  · rw [he] at h
    exact absurd h (by simp)
  · rw [Bool.not_eq_true] at he
    rw [he] at h
    cases hs : sumFieldScores a row a.scoring_rules with
    | error e =>
      rw [hs] at h
      exact absurd h (by simp [Bind.bind, Except.bind])
    | ok s =>
      rw [hs] at h
      have hok : Except.ok (ε := PyErr) (min (max s 0) 100) = .ok t := h
      have ht : min (max s 0) 100 = t := by injection hok
      constructor <;> omega

/-- The sorted tier list stored at construction is descending by
threshold. -/
lemma pySortDesc_sorted (l : List (Int × String)) :
    List.Sorted (fun x y : Int × String => y.1 ≤ x.1) (pySortDesc l) := by
  haveI h1 : IsTotal (Int × String) (fun x y : Int × String => x.1 ≥ y.1) :=
    ⟨fun a b => le_total b.1 a.1⟩
  haveI h2 : IsTrans (Int × String) (fun x y : Int × String => x.1 ≥ y.1) :=
    ⟨fun a b c hab hbc => le_trans hbc hab⟩
  exact List.sorted_insertionSort _ l

/-- The sorted tier list is a permutation of the supplied one. -/
lemma pySortDesc_perm (l : List (Int × String)) : (pySortDesc l).Perm l :=
  List.perm_insertionSort _ l

/-- The classification loop is the first-match search over the tier
list. -/
lemma levelLoop_eq_find (s : Int) (l : List (Int × String)) :
    levelLoop s l =
      match l.find? (fun t => decide (t.1 ≤ s)) with
      | some t => t.2
      | none => "Unknown" := by
  induction l with
  | nil => rfl
  | cons x xs ih =>
    obtain ⟨thr, lab⟩ := x
    by_cases h : thr ≤ s
    · rw [List.find?_cons_of_pos _ (by simpa using h)]
      simp [levelLoop, h]
    · rw [List.find?_cons_of_neg _ (by simpa using h)]
      rw [← ih]
      simp [levelLoop, h]

/-! ## C1: clamping of the total risk score -/

/-- C1: for every record and rule configuration whose per-field sum
evaluates to `s`, `calculate_risk_score` returns the clamp of `s` to
[0, 100]: below 0 gives exactly 0, above 100 gives exactly 100, values
inside are returned unchanged, and every successful result lies in
[0, 100]. -/
theorem score_record_clamps (a : Analyzer) (row : Row) (s : Int)
    (hrow : row ≠ []) (hsum : sumFieldScores a row a.scoring_rules = .ok s) :
    calculateRiskScore a row = .ok (min (max s 0) 100)
    ∧ (s < 0 → calculateRiskScore a row = .ok 0)
    ∧ (100 < s → calculateRiskScore a row = .ok 100)
    ∧ (0 ≤ s → s ≤ 100 → calculateRiskScore a row = .ok s)
    ∧ (∀ t : Int, calculateRiskScore a row = .ok t → 0 ≤ t ∧ t ≤ 100) := by
  have hmain := riskScore_of_sum hrow hsum
  refine ⟨hmain, ?_, ?_, ?_, fun t ht => riskScore_bounds ht⟩
  · intro h
    rw [hmain]
    congr 1
    omega
  · intro h
    rw [hmain]
    congr 1
    omega
  · intro h0 h100
    rw [hmain]
    congr 1
    omega

/-- Witness for C1 at the end-to-end example record: the unclamped sum is
44, inside [0, 100], so the score is returned unchanged. -/
theorem score_record_clamps_witness :
    calculateRiskScore exampleAnalyzer exampleRow = .ok 44 :=
  (score_record_clamps exampleAnalyzer exampleRow 44 (by decide) (by decide)).2.2.2.1
    (by decide) (by decide)

/-! ## C2: tier classification -/

/-- C2: for every score in [0, 100] and every non-empty tier list given to
the constructor in any order, the stored tiers are a descending-by-
threshold permutation of the supplied ones, and `determine_risk_level`
returns the label of the first stored tier whose threshold is at most the
score — or the sentinel `"Unknown"` when no tier matches. -/
theorem classify_first_tier (data : DataFrame)
    (rules : List (String × FieldRules)) (levels : List (Int × String))
    (s : Int) (a : Analyzer)
    (hne : levels ≠ []) (h0 : 0 ≤ s) (h100 : s ≤ 100)
    (hmk : mkAnalyzer data rules levels = .ok a) :
    List.Sorted (fun x y : Int × String => y.1 ≤ x.1) a.risk_levels
    ∧ a.risk_levels.Perm levels
    ∧ (∀ t, a.risk_levels.find? (fun x => decide (x.1 ≤ s)) = some t →
        determineRiskLevel a s = .ok t.2)
    ∧ (a.risk_levels.find? (fun x => decide (x.1 ≤ s)) = none →
        determineRiskLevel a s = .ok "Unknown") := by
  have ha : a = ⟨data, rules, pySortDesc levels⟩ := by
    unfold mkAnalyzer at hmk
    rw [isEmpty_false_of_ne_nil hne] at hmk
    exact (Except.ok.inj hmk).symm
  subst ha
  refine ⟨pySortDesc_sorted levels, pySortDesc_perm levels, ?_, ?_⟩
  · intro t hfind
    unfold determineRiskLevel
    rw [if_pos ⟨h0, h100⟩]
    rw [levelLoop_eq_find]
    rw [hfind]
  · intro hfind
    unfold determineRiskLevel
    rw [if_pos ⟨h0, h100⟩]
    rw [levelLoop_eq_find]
    rw [hfind]

/-! ## C3: range rules are first-match -/

/-- The range-rule loop on a cons is the entry test followed by early
return of the score or the loop on the tail. -/
lemma rangeLoop_cons (e : RangeEntry) (v : Value) (rest : List RangeEntry) :
    rangeLoop v (e :: rest) = (do
      let hit ← entryMatches e v
      if hit then pure e.score else rangeLoop v rest) := by
  obtain ⟨cond, thr, score⟩ := e
  cases cond with
  | none =>
    cases thr with
    | none => rfl
    | some t =>
      cases hgt : pyGtInt v t with
      | error e' => simp [rangeLoop, entryMatches, hgt, Bind.bind, Except.bind, Pure.pure, Except.pure]
      | ok b =>
        cases b <;> simp [rangeLoop, entryMatches, hgt, Bind.bind, Except.bind, Pure.pure, Except.pure]
  | some c =>
    cases hcv : c v with
    | error e' => simp [rangeLoop, entryMatches, hcv, Bind.bind, Except.bind, Pure.pure, Except.pure]
    | ok b =>
      cases b with
      | true => simp [rangeLoop, entryMatches, hcv, Bind.bind, Except.bind, Pure.pure, Except.pure]
      | false =>
        cases thr with
        | none => simp [rangeLoop, entryMatches, hcv, Bind.bind, Except.bind, Pure.pure, Except.pure]
        | some t =>
          cases hgt : pyGtInt v t with
          | error e' =>
            simp [rangeLoop, entryMatches, hcv, hgt, Bind.bind, Except.bind, Pure.pure, Except.pure]
          | ok b' =>
            cases b' <;>
              simp [rangeLoop, entryMatches, hcv, hgt, Bind.bind, Except.bind, Pure.pure, Except.pure]

/-- A matching head entry returns its score at once. -/
lemma rangeLoop_cons_of_true {v : Value} {e : RangeEntry} {rest : List RangeEntry}
    (h : entryMatches e v = .ok true) :
    rangeLoop v (e :: rest) = .ok e.score := by
  rw [rangeLoop_cons, h]
  rfl

/-- A non-matching head entry is skipped. -/
lemma rangeLoop_cons_of_false {v : Value} {e : RangeEntry} {rest : List RangeEntry}
    (h : entryMatches e v = .ok false) :
    rangeLoop v (e :: rest) = rangeLoop v rest := by
  rw [rangeLoop_cons, h]
  rfl

/-- A prefix of non-matching entries is skipped. -/
lemma rangeLoop_append_of_false {v : Value} {l1 l2 : List RangeEntry}
    (h : ∀ e ∈ l1, entryMatches e v = .ok false) :
    rangeLoop v (l1 ++ l2) = rangeLoop v l2 := by
  induction l1 with
  | nil => rfl
  | cons e es ih =>
    rw [List.cons_append, rangeLoop_cons_of_false (h e (by simp))]
    exact ih (fun e' he' => h e' (by simp [he']))

/-- C3: with a range-rule spec, `calculate_field_score` evaluates entries
in configured order and returns the first matching entry's score, 0 when
none match; in particular when two entries both match, the earlier one's
score is returned. -/
theorem score_field_first_match (a : Analyzer) (name : String)
    (entries : List RangeEntry) (v : Value)
    (hr : listLookup a.scoring_rules name = some (.rlist entries)) :
    (∀ l1 e l2, entries = l1 ++ e :: l2 →
        (∀ x ∈ l1, entryMatches x v = .ok false) → entryMatches e v = .ok true →
        calculateFieldScore a name v = .ok e.score)
    ∧ ((∀ e ∈ entries, entryMatches e v = .ok false) →
        calculateFieldScore a name v = .ok 0)
    ∧ (∀ l1 e1 l2 e2 l3, entries = l1 ++ (e1 :: (l2 ++ (e2 :: l3))) →
        (∀ x ∈ l1, entryMatches x v = .ok false) →
        entryMatches e1 v = .ok true → entryMatches e2 v = .ok true →
        calculateFieldScore a name v = .ok e1.score) := by
  have hcf : calculateFieldScore a name v = rangeLoop v entries := by
    unfold calculateFieldScore
    rw [hr]
    rfl
  refine ⟨?_, ?_, ?_⟩
  · intro l1 e l2 hsplit hpre hmatch
    rw [hcf, hsplit, rangeLoop_append_of_false hpre, rangeLoop_cons_of_true hmatch]
  · intro hall
    rw [hcf, ← List.append_nil entries, rangeLoop_append_of_false hall]
    rfl
  · intro l1 e1 l2 e2 l3 hsplit hpre hm1 _
    rw [hcf, hsplit, rangeLoop_append_of_false hpre, rangeLoop_cons_of_true hm1]

/-- Witness for C3 on the example `Credit amount` rule at value 9000:
the first and second entries (thresholds 8000 and 5000) both match, and
the first configured entry's score 15 wins. -/
theorem score_field_first_match_witness :
    calculateFieldScore exampleAnalyzer "Credit amount" (.int 9000) = .ok 15 :=
  (score_field_first_match exampleAnalyzer "Credit amount"
      [⟨none, some 8000, 15⟩, ⟨none, some 5000, 10⟩, ⟨none, some 2000, 5⟩]
      (.int 9000) rfl).2.2
    [] ⟨none, some 8000, 15⟩ [] ⟨none, some 5000, 10⟩ [⟨none, some 2000, 5⟩]
    rfl (fun x hx => absurd hx (List.not_mem_nil x)) (by decide) (by decide)

/-! ## C4: default-with-overrides precedence and fallback -/

/-- C4: with a `default`/`specific` spec, a value present in `specific`
returns its fixed score (the conclusion does not depend on the default
function, which is arbitrary here); otherwise the default function is
invoked, and a `TypeError` or `KeyError` from it is replaced by the
`specific.get(0, 0)` fallback instead of propagating. -/
theorem score_field_overrides (a : Analyzer) (name : String)
    (d : Value → Except PyErr Int) (sp : List (Value × Int)) (v : Value)
    (hr : listLookup a.scoring_rules name = some (.withDefault d sp)) :
    (∀ n, lookupVal sp v = some n → calculateFieldScore a name v = .ok n)
    ∧ (∀ n, lookupVal sp v = none → d v = .ok n →
        calculateFieldScore a name v = .ok n)
    ∧ (∀ e, lookupVal sp v = none → d v = .error e →
        (e = PyErr.typeError ∨ e = PyErr.keyError) →
        calculateFieldScore a name v = .ok ((lookupVal sp (.int 0)).getD 0)) := by
  have hcf : calculateFieldScore a name v = evalRules (.withDefault d sp) v := by
    unfold calculateFieldScore
    rw [hr]
    rfl
  refine ⟨?_, ?_, ?_⟩
  · intro n hl
    rw [hcf]
    simp [evalRules, hl]
  · intro n hl hd
    rw [hcf]
    simp [evalRules, hl, hd]
  · intro e hl hd he
    rw [hcf]
    rcases he with rfl | rfl <;> simp [evalRules, hl, hd]

/-- Witness for C4: the specific score 7 wins over the default's 99. -/
theorem score_field_overrides_witness :
    calculateFieldScore overrideAnalyzer "Kind" (.int 1) = .ok 7 :=
  (score_field_overrides overrideAnalyzer "Kind" (fun _ => .ok 99)
      [(.int 1, 7)] (.int 1) rfl).1 7 rfl

/-! ## C5: exception safety of field scoring -/

/-- C5 counterexample: the claim that `calculate_field_score` never raises
fails on the code: the example `Age` range rule applies its predicate
`x < 20 or x > 70` to the value, and on a string value the comparison
raises `TypeError`, which propagates to the caller uncaught. -/
theorem score_field_raises_cex :
    calculateFieldScore exampleAnalyzer "Age" (.str "forty-five") =
      .error .typeError := by decide

/-- C5 amended: `calculate_field_score` cannot raise through an absent
rule (score 0), a direct mapping (absent values score 0), an unrecognized
rule shape (score 0), or a `default`/`specific` rule whose default fails
only with `TypeError`/`KeyError`; only a failing range-rule test (or a
default failing with a different exception) escapes. -/
theorem score_field_no_raise (a : Analyzer) (name : String) (v : Value) :
    (listLookup a.scoring_rules name = none →
      calculateFieldScore a name v = .ok 0)
    ∧ (∀ m, listLookup a.scoring_rules name = some (.mapping m) →
        calculateFieldScore a name v = .ok ((lookupVal m v).getD 0))
    ∧ (listLookup a.scoring_rules name = some .other →
        calculateFieldScore a name v = .ok 0)
    ∧ (∀ d sp, listLookup a.scoring_rules name = some (.withDefault d sp) →
        d v ≠ .error PyErr.assertionError →
        ∃ n, calculateFieldScore a name v = .ok n) := by
  refine ⟨?_, ?_, ?_, ?_⟩
  · intro h
    unfold calculateFieldScore
    rw [h]
    rfl
  · intro m h
    unfold calculateFieldScore
    rw [h]
    rfl
  · intro h
    unfold calculateFieldScore
    rw [h]
    rfl
  · intro d sp h hd
    unfold calculateFieldScore
    rw [h]
    show ∃ n, evalRules (.withDefault d sp) v = .ok n
    cases hl : lookupVal sp v with
    | some s => exact ⟨s, by simp [evalRules, hl]⟩
    | none =>
      cases hdv : d v with
      | ok s => exact ⟨s, by simp [evalRules, hl, hdv]⟩
      | error e =>
        cases e with
        | typeError =>
          exact ⟨(lookupVal sp (.int 0)).getD 0, by simp [evalRules, hl, hdv]⟩
        | keyError =>
          exact ⟨(lookupVal sp (.int 0)).getD 0, by simp [evalRules, hl, hdv]⟩
        | assertionError => exact absurd hdv hd

/-- Witness for C5 (amended): a field with no configured rule scores 0
without raising. -/
theorem score_field_no_raise_witness :
    calculateFieldScore exampleAnalyzer "unconfigured" (.int 5) = .ok 0 :=
  (score_field_no_raise exampleAnalyzer "unconfigured" (.int 5)).1 rfl

/-! ## C6: the end-to-end example -/

/-- C6 counterexample: on the end-to-end record under the example rules
the total risk score is not the 39 the specification states. -/
theorem end_to_end_cex :
    calculateRiskScore exampleAnalyzer exampleRow ≠ .ok 39 := by decide

/-- C6 amended: the per-field scores on the end-to-end record are exactly
the ones the specification lists (age 0, sex 2, job 5, housing 5,
saving accounts 9, checking account 8, credit amount 5, duration 5,
purpose 5), but their sum — and the code's total — is 44, not 39; the
resulting tier is still `"Medium-low risk"`. -/
theorem end_to_end_example :
    calculateFieldScore exampleAnalyzer "Age" (.int 45) = .ok 0
    ∧ calculateFieldScore exampleAnalyzer "Sex" (.str "male") = .ok 2
    ∧ calculateFieldScore exampleAnalyzer "Job" (.int 2) = .ok 5
    ∧ calculateFieldScore exampleAnalyzer "Housing" (.int 2) = .ok 5
    ∧ calculateFieldScore exampleAnalyzer "Saving accounts" (.int 1) = .ok 9
    ∧ calculateFieldScore exampleAnalyzer "Checking account" (.int 1) = .ok 8
    ∧ calculateFieldScore exampleAnalyzer "Credit amount" (.int 3000) = .ok 5
    ∧ calculateFieldScore exampleAnalyzer "Duration" (.int 18) = .ok 5
    ∧ calculateFieldScore exampleAnalyzer "Purpose" (.str "car") = .ok 5
    ∧ calculateRiskScore exampleAnalyzer exampleRow = .ok 44
    ∧ determineRiskLevel exampleAnalyzer 44 = .ok "Medium-low risk" := by
  decide

/-! ## C8: a configured field missing from the record raises -/

/-- The field-score sum splits over concatenation of the configured field
list, propagating the first error. -/
lemma sumFieldScores_append (a : Analyzer) (row : Row)
    (l1 l2 : List (String × FieldRules)) :
    sumFieldScores a row (l1 ++ l2) = (do
      let s1 ← sumFieldScores a row l1
      let s2 ← sumFieldScores a row l2
      pure (s1 + s2)) := by
  induction l1 with
  | nil =>
    cases h : sumFieldScores a row l2 with
    | error e => simp [sumFieldScores, h, Bind.bind, Except.bind, Pure.pure, Except.pure]
    | ok s => simp [sumFieldScores, h, Bind.bind, Except.bind, Pure.pure, Except.pure]
  | cons p rest ih =>
    obtain ⟨f, fr⟩ := p
    cases hv : listLookup row (normalize f) with
    | none => simp [sumFieldScores, hv, Bind.bind, Except.bind, Pure.pure, Except.pure]
    | some v =>
      cases hs : calculateFieldScore a f v with
      | error e => simp [sumFieldScores, hv, hs, Bind.bind, Except.bind, Pure.pure, Except.pure]
      | ok s =>
        cases h1 : sumFieldScores a row rest with
        | error e =>
          simp [sumFieldScores, hv, hs, h1, ih, Bind.bind, Except.bind, Pure.pure, Except.pure]
        | ok s1 =>
          cases h2 : sumFieldScores a row l2 with
          | error e =>
            simp [sumFieldScores, hv, hs, h1, h2, ih, Bind.bind, Except.bind, Pure.pure, Except.pure]
          | ok s2 =>
            simp [sumFieldScores, hv, hs, h1, h2, ih, Bind.bind, Except.bind,
              Pure.pure, Except.pure, add_assoc]

/-- C8: when a configured field (preceded by successfully scored fields)
has no column of its normalized name in the record, `calculate_risk_score`
propagates a `KeyError` to the caller — the field is not silently scored
0. -/
theorem missing_field_raises (a : Analyzer) (row : Row)
    (pre : List (String × FieldRules)) (f : String) (fr : FieldRules)
    (rest : List (String × FieldRules)) (s : Int)
    (hrules : a.scoring_rules = pre ++ (f, fr) :: rest)
    (hrow : row ≠ [])
    (hpre : sumFieldScores a row pre = .ok s)
    (hmiss : listLookup row (normalize f) = none) :
    calculateRiskScore a row = .error .keyError := by
  unfold calculateRiskScore
  rw [isEmpty_false_of_ne_nil hrow, hrules, sumFieldScores_append, hpre]
  have hcons : sumFieldScores a row ((f, fr) :: rest) = .error .keyError := by
    simp [sumFieldScores, hmiss, Bind.bind, Except.bind]
  rw [hcons]
  rfl

/-- Witness for C8: scoring a record without the configured
`credit_amount` column raises `KeyError`. -/
theorem missing_field_raises_witness :
    calculateRiskScore missAnalyzer [("x", .int 1)] = .error .keyError :=
  missing_field_raises missAnalyzer [("x", .int 1)] [] "Credit amount"
    (.rlist [⟨none, some 2000, 5⟩]) [] 0 rfl (by decide) rfl (by decide)

/-! ## C9: configuration errors -/

/-- C9 counterexample: a rule spec that is none of the four recognized
shapes (here a rule value that is neither a list nor a dict) does not
fail at construction nor on first call — the analyzer is built
successfully and the malformed field silently scores 0. -/
theorem config_error_cex :
    mkAnalyzer [[("x", .int 1)]] [("Weird", .other)] exampleLevels =
      .ok ⟨[[("x", .int 1)]], [("Weird", .other)], pySortDesc exampleLevels⟩
    ∧ calculateFieldScore
        ⟨[[("x", .int 1)]], [("Weird", .other)], pySortDesc exampleLevels⟩
        "Weird" (.int 1) = .ok 0 :=
  ⟨rfl, rfl⟩

/-- C9 amended: constructing with an empty risk-tier list fails
immediately (assertion error) and a non-empty tier list constructs
successfully, but a rule spec outside the four recognized shapes is
accepted silently: it is treated like an unconfigured field and scores 0
instead of raising a configuration error. -/
theorem config_error_handling :
    (∀ (data : DataFrame) (rules : List (String × FieldRules)),
        mkAnalyzer data rules [] = .error .assertionError)
    ∧ (∀ (data : DataFrame) (rules : List (String × FieldRules))
        (levels : List (Int × String)), levels ≠ [] →
        mkAnalyzer data rules levels = .ok ⟨data, rules, pySortDesc levels⟩)
    ∧ (∀ (a : Analyzer) (name : String) (v : Value),
        listLookup a.scoring_rules name = some .other →
        calculateFieldScore a name v = .ok 0) := by
  refine ⟨fun data rules => rfl, ?_, ?_⟩
  · intro data rules levels h
    unfold mkAnalyzer
    rw [isEmpty_false_of_ne_nil h]
    rfl
  · intro a name v h
    unfold calculateFieldScore
    rw [h]
    rfl

/-- Witness for C9 (amended): a concrete non-empty tier list constructs
successfully, and a concrete malformed rule spec scores 0. -/
theorem config_error_handling_witness :
    mkAnalyzer [] [] exampleLevels = .ok ⟨[], [], pySortDesc exampleLevels⟩
    ∧ calculateFieldScore ⟨[], [("Weird", .other)], pySortDesc exampleLevels⟩
        "Weird" (.str "zzz") = .ok 0 :=
  ⟨config_error_handling.2.1 [] [] exampleLevels (by decide),
   config_error_handling.2.2
     ⟨[], [("Weird", .other)], pySortDesc exampleLevels⟩ "Weird" (.str "zzz") rfl⟩

/-- Witness for C2: with the example tiers (supplied unsorted) a score of
69 classifies as `"Medium-high risk"`, matching the first matching tier
in descending order. -/
theorem classify_first_tier_witness :
    determineRiskLevel ⟨[], [], pySortDesc [(0, "Low risk"), (70, "High risk"),
      (50, "Medium-high risk"), (30, "Medium-low risk")]⟩ 69 =
      .ok "Medium-high risk" :=
  (classify_first_tier [] [] [(0, "Low risk"), (70, "High risk"),
      (50, "Medium-high risk"), (30, "Medium-low risk")] 69
      ⟨[], [], pySortDesc [(0, "Low risk"), (70, "High risk"),
        (50, "Medium-high risk"), (30, "Medium-low risk")]⟩
      (by decide) (by decide) (by decide) rfl).2.2.1
    (50, "Medium-high risk") (by decide)

/-! ## C7 and C10: report generation -/

/-- A key absent from an association list looks up to `none`. -/
lemma listLookup_none_of_not_mem {α : Type} {l : List (String × α)} {k : String}
    (h : k ∉ l.map Prod.fst) : listLookup l k = none := by
  induction l with
  | nil => rfl
  | cons p rest ih =>
    obtain ⟨k', x⟩ := p
    simp only [List.map_cons, List.mem_cons, not_or] at h
    have hne : k' ≠ k := fun he => h.1 he.symm
    simp only [listLookup, if_neg hne]
    exact ih h.2

/-- A key present among an association list's keys looks up to some
value. -/
lemma listLookup_isSome_of_mem {α : Type} {l : List (String × α)} {k : String}
    (h : k ∈ l.map Prod.fst) : ∃ v, listLookup l k = some v := by
  induction l with
  | nil => simp at h
  | cons p rest ih =>
    obtain ⟨k', x⟩ := p
    by_cases he : k' = k
    · exact ⟨x, by simp [listLookup, he]⟩
    · simp only [List.map_cons, List.mem_cons] at h
      rcases h with h | h
      · exact absurd h.symm he
      · obtain ⟨v, hv⟩ := ih h
        exact ⟨v, by simp [listLookup, he, hv]⟩

/-- Lookups found in the left part of an appended association list are
unchanged. -/
lemma listLookup_append_left {α : Type} {l1 l2 : List (String × α)} {k : String}
    {v : α} (h : listLookup l1 k = some v) : listLookup (l1 ++ l2) k = some v := by
  induction l1 with
  | nil => simp [listLookup] at h
  | cons p rest ih =>
    obtain ⟨k', x⟩ := p
    by_cases he : k' = k
    · simp only [listLookup, if_pos he] at h ⊢
      exact h
    · simp only [listLookup, if_neg he] at h ⊢
      exact ih h

/-- Lookups absent from the left part of an appended association list
fall through to the right part. -/
lemma listLookup_append_right {α : Type} {l1 l2 : List (String × α)} {k : String}
    (h : listLookup l1 k = none) : listLookup (l1 ++ l2) k = listLookup l2 k := by
  induction l1 with
  | nil => rfl
  | cons p rest ih =>
    obtain ⟨k', x⟩ := p
    by_cases he : k' = k
    · simp [listLookup, if_pos he] at h
    · simp only [listLookup, if_neg he] at h ⊢
      exact ih h

/-- Appending a column of a different name does not change a lookup. -/
lemma listLookup_append_single_ne {α : Type} (l : List (String × α)) {k c : String}
    (x : α) (h : c ≠ k) : listLookup (l ++ [(k, x)]) c = listLookup l c := by
  induction l with
  | nil =>
    have hne : k ≠ c := fun he => h he.symm
    simp only [List.nil_append, listLookup, if_neg hne]
  | cons p rest ih =>
    obtain ⟨k', y⟩ := p
    by_cases hk : k' = c <;> simp [listLookup, hk, ih]

/-- Reading every column of a duplicate-free row back by name
reconstructs the row. -/
lemma map_rowGetD_self (r : Row) (h : (r.map Prod.fst).Nodup) :
    (r.map Prod.fst).map (fun c => (c, rowGetD r c)) = r := by
  induction r with
  | nil => rfl
  | cons p rest ih =>
    obtain ⟨k, v⟩ := p
    simp only [List.map_cons, List.nodup_cons] at h
    simp only [List.map_cons]
    have hhead : rowGetD ((k, v) :: rest) k = v := by
      simp [rowGetD, listLookup]
    rw [hhead]
    congr 1
    have hstep : ∀ c ∈ rest.map Prod.fst,
        (fun c => (c, rowGetD ((k, v) :: rest) c)) c =
          (fun c => (c, rowGetD rest c)) c := by
      intro c hc
      have hck : k ≠ c := fun he => h.1 (he ▸ hc)
      simp [rowGetD, listLookup, hck]
    rw [List.map_congr_left hstep]
    exact ih h.2

/-- Assigning a column absent from a row appends it at the end. -/
lemma rowSet_fresh (row : Row) (name : String) (v : Value)
    (h : name ∉ row.map Prod.fst) : rowSet row name v = row ++ [(name, v)] := by
  unfold rowSet
  rw [if_neg]
  simp only [List.any_eq_true, decide_eq_true_eq, not_exists]
  intro p
  intro hmem
  rcases hmem with ⟨hp, he⟩
  exact h (List.mem_map.mpr ⟨p, hp, he⟩)

/-- Assigning a column absent from every row appends it to each row. -/
lemma setCol_fresh (df : DataFrame) (name : String) (vals : List Value)
    (h : ∀ r ∈ df, name ∉ r.map Prod.fst) :
    setCol df name vals = (df.zip vals).map (fun p => p.1 ++ [(name, p.2)]) := by
  unfold setCol
  apply List.map_congr_left
  intro p hp
  exact rowSet_fresh p.1 name p.2 (h p.1 (List.of_mem_zip hp).1)

/-- Length of a column assignment. -/
lemma setCol_length (df : DataFrame) (name : String) (vals : List Value) :
    (setCol df name vals).length = min df.length vals.length := by
  simp [setCol]

/-- Positional read below the length ignores the default. -/
lemma getD_lt {α : Type} (l : List α) {i : Nat} (hi : i < l.length) (d : α) :
    l.getD i d = l[i] := by
  rw [List.getD_eq_getElem?_getD, List.getElem?_eq_getElem hi]
  rfl

/-- Positional read through a map, below the length. -/
lemma getD_map_lt {α β : Type} (f : α → β) (l : List α) {i : Nat}
    (hi : i < l.length) (d : β) (d' : α) :
    (l.map f).getD i d = f (l.getD i d') := by
  rw [getD_lt (l.map f) (by simpa using hi) d, getD_lt l hi d']
  exact List.getElem_map _

/-- Positional read of a mapped range. -/
lemma getD_map_range {α : Type} (f : Nat → α) {n i : Nat} (hi : i < n) (d : α) :
    ((List.range n).map f).getD i d = f i := by
  rw [getD_map_lt f (List.range n) (by simpa using hi) d 0]
  rw [getD_lt (List.range n) (by simpa using hi) 0]
  rw [List.getElem_range]

/-- Positional read of a fresh column assignment in zip-map form. -/
lemma zip_map_append_getD (l : DataFrame) (vals : List Value) (name : String)
    (dv : Value) (hlen : vals.length = l.length) {i : Nat} (hi : i < l.length) :
    ((l.zip vals).map (fun p => p.1 ++ [(name, p.2)])).getD i [] =
      l.getD i [] ++ [(name, vals.getD i dv)] := by
  have hz : i < (l.zip vals).length := by
    rw [List.length_zip]
    omega
  rw [getD_lt _ (by simpa using hz) [], List.getElem_map _, List.getElem_zip,
    getD_lt l hi [], getD_lt vals (by omega) dv]

/-- Mapping an error-propagating function over a mapped list composes. -/
lemma mapExcept_map {α β γ : Type} (f : β → Except PyErr γ) (g : α → β)
    (l : List α) :
    mapExcept f (l.map g) = mapExcept (fun x => f (g x)) l := by
  induction l with
  | nil => rfl
  | cons x xs ih => simp [mapExcept, ih]

/-- Pointwise equal functions produce equal error-propagating maps. -/
lemma mapExcept_congr {α β : Type} {f g : α → Except PyErr β} {l : List α}
    (h : ∀ x ∈ l, f x = g x) : mapExcept f l = mapExcept g l := by
  induction l with
  | nil => rfl
  | cons x xs ih =>
    simp only [mapExcept, h x (by simp)]
    rw [ih (fun y hy => h y (by simp [hy]))]

/-- A successful error-propagating map preserves length. -/
lemma mapExcept_ok_length {α β : Type} {f : α → Except PyErr β} {l : List α}
    {ys : List β} (h : mapExcept f l = .ok ys) : ys.length = l.length := by
  induction l generalizing ys with
  | nil =>
    have hys : ([] : List β) = ys := Except.ok.inj h
    rw [← hys]
    rfl
  | cons x xs ih =>
    unfold mapExcept at h
    cases hfx : f x with
    | error e => rw [hfx] at h; exact absurd h (by simp [Bind.bind, Except.bind])
    | ok y =>
      rw [hfx] at h
      cases hm : mapExcept f xs with
      | error e =>
        rw [hm] at h
        exact absurd h (by simp [Bind.bind, Except.bind])
      | ok ys' =>
        rw [hm] at h
        have hys : y :: ys' = ys := Except.ok.inj h
        rw [← hys]
        simp [ih hm]

/-- Everywhere-successful functions give the plain map. -/
lemma mapExcept_ok_of_forall {α β : Type} {f : α → Except PyErr β} {g : α → β}
    {l : List α} (h : ∀ x ∈ l, f x = .ok (g x)) :
    mapExcept f l = .ok (l.map g) := by
  induction l with
  | nil => rfl
  | cons x xs ih =>
    simp only [mapExcept, h x (by simp)]
    rw [ih (fun y hy => h y (by simp [hy]))]
    rfl

/-- Every element of a successful error-propagating map comes from some
input element. -/
lemma mapExcept_ok_mem {α β : Type} {f : α → Except PyErr β} {l : List α}
    {ys : List β} (h : mapExcept f l = .ok ys) :
    ∀ y ∈ ys, ∃ x ∈ l, f x = .ok y := by
  induction l generalizing ys with
  | nil =>
    have hys : ([] : List β) = ys := Except.ok.inj h
    rw [← hys]
    simp
  | cons x xs ih =>
    unfold mapExcept at h
    cases hfx : f x with
    | error e => rw [hfx] at h; exact absurd h (by simp [Bind.bind, Except.bind])
    | ok y =>
      rw [hfx] at h
      cases hm : mapExcept f xs with
      | error e =>
        rw [hm] at h
        exact absurd h (by simp [Bind.bind, Except.bind])
      | ok ys' =>
        rw [hm] at h
        have hys : y :: ys' = ys := Except.ok.inj h
        rw [← hys]
        intro z hz
        rcases List.mem_cons.mp hz with rfl | hz'
        · exact ⟨x, by simp, hfx⟩
        · obtain ⟨w, hw, hfw⟩ := ih hm z hz'
          exact ⟨w, by simp [hw], hfw⟩

/-- Appending a column whose name no configured field normalizes to does
not change the field-score sum. -/
lemma sumFieldScores_append_col (a : Analyzer) (row : Row) (k : String)
    (v : Value) (rules : List (String × FieldRules))
    (hk : ∀ p ∈ rules, normalize p.1 ≠ k) :
    sumFieldScores a (row ++ [(k, v)]) rules = sumFieldScores a row rules := by
  induction rules with
  | nil => rfl
  | cons p rest ih =>
    obtain ⟨f, fr⟩ := p
    have hf : normalize f ≠ k := hk (f, fr) (by simp)
    simp only [sumFieldScores, listLookup_append_single_ne row v hf,
      ih (fun q hq => hk q (by simp [hq]))]

/-- Appending such a column does not change the record's risk score. -/
lemma riskScore_append_col (a : Analyzer) (row : Row) (k : String) (v : Value)
    (hrow : row ≠ [])
    (hk : ∀ p ∈ a.scoring_rules, normalize p.1 ≠ k) :
    calculateRiskScore a (row ++ [(k, v)]) = calculateRiskScore a row := by
  unfold calculateRiskScore
  rw [isEmpty_false_of_ne_nil hrow,
    isEmpty_false_of_ne_nil (by simp : row ++ [(k, v)] ≠ []),
    sumFieldScores_append_col a row k v a.scoring_rules hk]

/-- Columns of the stored report frame: the original columns with the
three synthetic ones appended. -/
lemma dfColumns_specStoredReport (a : Analyzer) (scores : List Int)
    (hne : a.data ≠ [])
    (hcols : ∀ r ∈ a.data, r.map Prod.fst = dfColumns a.data) :
    dfColumns (specStoredReport a scores) =
      dfColumns a.data ++ ["customer_id", "risk_score", "risk_level"] := by
  obtain ⟨r0, rest, hsplit⟩ := List.exists_cons_of_ne_nil hne
  have hr0 : r0.map Prod.fst = dfColumns a.data :=
    hcols r0 (by rw [hsplit]; exact List.mem_cons_self r0 rest)
  have hlen : a.data.length = rest.length + 1 := by rw [hsplit]; rfl
  unfold specStoredReport
  rw [hlen, List.range_succ_eq_map, List.map_cons]
  show (a.data.getD 0 [] ++ _).map Prod.fst = _
  rw [hsplit]
  simp only [List.getD_cons_zero, List.map_append, List.map_cons, List.map_nil]
  rw [hsplit] at hr0
  rw [hr0]

/-- Columns of the returned report frame: `customer_id` first, then the
original columns, then the score and level columns. -/
lemma dfColumns_specReturnedReport (a : Analyzer) (scores : List Int)
    (hne : a.data ≠ [])
    (hcols : ∀ r ∈ a.data, r.map Prod.fst = dfColumns a.data) :
    dfColumns (specReturnedReport a scores) =
      "customer_id" :: (dfColumns a.data ++ ["risk_score", "risk_level"]) := by
  obtain ⟨r0, rest, hsplit⟩ := List.exists_cons_of_ne_nil hne
  have hr0 : r0.map Prod.fst = dfColumns a.data :=
    hcols r0 (by rw [hsplit]; exact List.mem_cons_self r0 rest)
  have hlen : a.data.length = rest.length + 1 := by rw [hsplit]; rfl
  unfold specReturnedReport
  rw [hlen, List.range_succ_eq_map, List.map_cons]
  show (_ :: (a.data.getD 0 [] ++ _)).map Prod.fst = _
  rw [hsplit]
  simp only [List.getD_cons_zero, List.map_cons, List.map_append, List.map_nil]
  rw [hsplit] at hr0
  rw [hr0]

/-- The three fresh column assignments of `generate_risk_report` produce
exactly the stored frame the specification describes. -/
lemma stored_frame_eq (a : Analyzer) (scores : List Int)
    (hcols : ∀ r ∈ a.data, r.map Prod.fst = dfColumns a.data)
    (hcid : "customer_id" ∉ dfColumns a.data)
    (hrs : "risk_score" ∉ dfColumns a.data)
    (hrl : "risk_level" ∉ dfColumns a.data)
    (hslen : scores.length = a.data.length) :
    setCol (setCol (setCol a.data "customer_id"
        ((List.range a.data.length).map (fun i : Nat => Value.int (i + 1))))
      "risk_score" (scores.map Value.int))
      "risk_level" ((scores.map (fun s => levelLoop s a.risk_levels)).map Value.str) =
    specStoredReport a scores := by
  have hfresh1 : ∀ r ∈ a.data, "customer_id" ∉ r.map Prod.fst := by
    intro r hr
    rw [hcols r hr]
    exact hcid
  rw [setCol_fresh a.data _ _ hfresh1]
  have hidslen :
      ((List.range a.data.length).map (fun i : Nat => Value.int (i + 1))).length =
        a.data.length := by simp
  have hd1keys : ∀ r ∈ (a.data.zip
        ((List.range a.data.length).map (fun i : Nat => Value.int (i + 1)))).map
        (fun p => p.1 ++ [("customer_id", p.2)]),
      r.map Prod.fst = dfColumns a.data ++ ["customer_id"] := by
    intro r hr
    obtain ⟨p, hp, rfl⟩ := List.mem_map.mp hr
    rw [List.map_append, hcols p.1 (List.of_mem_zip hp).1]
    rfl
  have hfresh2 : ∀ r ∈ (a.data.zip
        ((List.range a.data.length).map (fun i : Nat => Value.int (i + 1)))).map
        (fun p => p.1 ++ [("customer_id", p.2)]),
      "risk_score" ∉ r.map Prod.fst := by
    intro r hr
    rw [hd1keys r hr]
    simp only [List.mem_append, List.mem_singleton, not_or]
    exact ⟨hrs, by decide⟩
  rw [setCol_fresh _ _ _ hfresh2]
  have hd1len : ((a.data.zip
        ((List.range a.data.length).map (fun i : Nat => Value.int (i + 1)))).map
        (fun p => p.1 ++ [("customer_id", p.2)])).length = a.data.length := by
    simp [hidslen]
  have hd2keys : ∀ r ∈ (((a.data.zip
        ((List.range a.data.length).map (fun i : Nat => Value.int (i + 1)))).map
        (fun p => p.1 ++ [("customer_id", p.2)])).zip (scores.map Value.int)).map
        (fun p => p.1 ++ [("risk_score", p.2)]),
      r.map Prod.fst = dfColumns a.data ++ ["customer_id", "risk_score"] := by
    intro r hr
    obtain ⟨p, hp, rfl⟩ := List.mem_map.mp hr
    rw [List.map_append, hd1keys p.1 (List.of_mem_zip hp).1]
    simp
  have hfresh3 : ∀ r ∈ (((a.data.zip
        ((List.range a.data.length).map (fun i : Nat => Value.int (i + 1)))).map
        (fun p => p.1 ++ [("customer_id", p.2)])).zip (scores.map Value.int)).map
        (fun p => p.1 ++ [("risk_score", p.2)]),
      "risk_level" ∉ r.map Prod.fst := by
    intro r hr
    rw [hd2keys r hr]
    simp only [List.mem_append, List.mem_cons, List.mem_singleton, not_or]
    exact ⟨hrl, by decide, by decide⟩
  rw [setCol_fresh _ _ _ hfresh3]
  have hd2len : ((((a.data.zip
        ((List.range a.data.length).map (fun i : Nat => Value.int (i + 1)))).map
        (fun p => p.1 ++ [("customer_id", p.2)])).zip (scores.map Value.int)).map
        (fun p => p.1 ++ [("risk_score", p.2)])).length = a.data.length := by
    simp [hd1len, hslen]
  apply List.ext_getElem
  · simp [hd2len, hslen, specStoredReport]
  · intro i h1 h2
    have hi : i < a.data.length := by
      simpa [specStoredReport] using h2
    rw [← getD_lt _ h1 [], ← getD_lt _ h2 []]
    rw [zip_map_append_getD _ _ _ (Value.str "")
      (by simp [hslen] : ((scores.map (fun s => levelLoop s a.risk_levels)).map Value.str).length =
        ((((a.data.zip ((List.range a.data.length).map (fun i : Nat => Value.int (i + 1)))).map
          (fun p => p.1 ++ [("customer_id", p.2)])).zip (scores.map Value.int)).map
          (fun p => p.1 ++ [("risk_score", p.2)])).length)
      (by rw [hd2len]; exact hi)]
    rw [zip_map_append_getD _ _ _ (Value.int 0)
      (by simp [hd1len, hslen])
      (by rw [hd1len]; exact hi)]
    rw [zip_map_append_getD _ _ _ (Value.int 0)
      (by simp)
      hi]
    rw [getD_map_range _ hi]
    rw [getD_map_lt Value.int scores (by omega) (Value.int 0) 0]
    rw [getD_map_lt Value.str (scores.map (fun s => levelLoop s a.risk_levels))
      (by simp; omega) (Value.str "") ""]
    rw [getD_map_lt (fun s => levelLoop s a.risk_levels) scores (by omega) "" 0]
    unfold specStoredReport
    rw [getD_map_range _ hi]
    simp [List.append_assoc]

/-- Projecting one enriched row onto the reordered column list moves
`customer_id` to the front and keeps the original values followed by the
score and level. -/
lemma reportRow_eq (origrow : Row) (cols0 : List String) (w1 w2 w3 : Value)
    (hkeys : origrow.map Prod.fst = cols0)
    (hnodup : cols0.Nodup)
    (hcid : "customer_id" ∉ cols0)
    (hrs : "risk_score" ∉ cols0)
    (hrl : "risk_level" ∉ cols0) :
    ("customer_id" :: (cols0 ++ ["risk_score", "risk_level"])).map
        (fun c => (c, rowGetD (origrow ++
          [("customer_id", w1), ("risk_score", w2), ("risk_level", w3)]) c)) =
      ("customer_id", w1) ::
        (origrow ++ [("risk_score", w2), ("risk_level", w3)]) := by
  have hlcid : listLookup origrow "customer_id" = none :=
    listLookup_none_of_not_mem (by rw [hkeys]; exact hcid)
  have hlrs : listLookup origrow "risk_score" = none :=
    listLookup_none_of_not_mem (by rw [hkeys]; exact hrs)
  have hlrl : listLookup origrow "risk_level" = none :=
    listLookup_none_of_not_mem (by rw [hkeys]; exact hrl)
  simp only [List.map_cons]
  congr 1
  · show ("customer_id",
      rowGetD (origrow ++ [("customer_id", w1), ("risk_score", w2), ("risk_level", w3)])
        "customer_id") = ("customer_id", w1)
    unfold rowGetD
    rw [listLookup_append_right hlcid]
    rfl
  · rw [List.map_append]
    congr 1
    · have hstep : ∀ c ∈ cols0,
          (fun c => (c, rowGetD (origrow ++
            [("customer_id", w1), ("risk_score", w2), ("risk_level", w3)]) c)) c =
            (fun c => (c, rowGetD origrow c)) c := by
        intro c hc
        obtain ⟨v, hv⟩ := listLookup_isSome_of_mem
          (by rw [hkeys]; exact hc : c ∈ origrow.map Prod.fst)
        simp only [rowGetD, listLookup_append_left hv, hv]
      rw [List.map_congr_left hstep, ← hkeys]
      exact map_rowGetD_self origrow (by rw [hkeys]; exact hnodup)
    · show [("risk_score",
          rowGetD (origrow ++ [("customer_id", w1), ("risk_score", w2), ("risk_level", w3)])
            "risk_score"),
        ("risk_level",
          rowGetD (origrow ++ [("customer_id", w1), ("risk_score", w2), ("risk_level", w3)])
            "risk_level")] = [("risk_score", w2), ("risk_level", w3)]
      unfold rowGetD
      rw [listLookup_append_right hlrs, listLookup_append_right hlrl]
      rfl

/-- The column selection step of `generate_risk_report` applied to the
stored frame produces exactly the returned frame the specification
describes. -/
lemma returned_frame_eq (a : Analyzer) (scores : List Int)
    (hne : a.data ≠ [])
    (hcols : ∀ r ∈ a.data, r.map Prod.fst = dfColumns a.data)
    (hnodup : (dfColumns a.data).Nodup)
    (hcid : "customer_id" ∉ dfColumns a.data)
    (hrs : "risk_score" ∉ dfColumns a.data)
    (hrl : "risk_level" ∉ dfColumns a.data) :
    (specStoredReport a scores).map (fun r =>
        ("customer_id" :: (dfColumns (specStoredReport a scores)).filter
            (fun c => c ≠ "customer_id")).map (fun c => (c, rowGetD r c))) =
      specReturnedReport a scores := by
  rw [dfColumns_specStoredReport a scores hne hcols]
  have hfilter : (dfColumns a.data ++
        ["customer_id", "risk_score", "risk_level"]).filter
        (fun c => c ≠ "customer_id") =
      dfColumns a.data ++ ["risk_score", "risk_level"] := by
    rw [List.filter_append]
    congr 1
    · apply List.filter_eq_self.mpr
      intro c hcmem
      have hcne2 : c ≠ "customer_id" := fun he => hcid (he ▸ hcmem)
      simp [hcne2]
  rw [hfilter]
  unfold specStoredReport specReturnedReport
  rw [List.map_map]
  apply List.map_congr_left
  intro i hi
  have hin : i < a.data.length := List.mem_range.mp hi
  have hmem : a.data.getD i [] ∈ a.data := by
    rw [getD_lt a.data hin []]
    exact List.getElem_mem hin
  exact reportRow_eq (a.data.getD i []) (dfColumns a.data) _ _ _
    (hcols _ hmem) hnodup hcid hrs hrl

/-- Every successfully computed score classifies without tripping the
`determine_risk_level` assertion, returning the loop value. -/
lemma classify_scores_ok (a : Analyzer) (scores : List Int)
    (hscores : mapExcept (fun r => calculateRiskScore a r) a.data = .ok scores) :
    ∀ s ∈ scores, determineRiskLevel a s = .ok (levelLoop s a.risk_levels) := by
  intro s hs
  obtain ⟨r, _, hok⟩ := mapExcept_ok_mem hscores s hs
  obtain ⟨h0, h100⟩ := riskScore_bounds hok
  unfold determineRiskLevel
  rw [if_pos ⟨h0, h100⟩]

/-- Master lemma: on a well-formed non-empty table whose rows all score
successfully, `generate_risk_report` succeeds and returns exactly the
stored and returned frames the specification describes. -/
lemma generateRiskReport_eq_spec (a : Analyzer) (scores : List Int)
    (hne : a.data ≠ [])
    (hcne : dfColumns a.data ≠ [])
    (hcols : ∀ r ∈ a.data, r.map Prod.fst = dfColumns a.data)
    (hnodup : (dfColumns a.data).Nodup)
    (hcid : "customer_id" ∉ dfColumns a.data)
    (hrs : "risk_score" ∉ dfColumns a.data)
    (hrl : "risk_level" ∉ dfColumns a.data)
    (hnorm : ∀ p ∈ a.scoring_rules, normalize p.1 ≠ "customer_id")
    (hscores : mapExcept (fun r => calculateRiskScore a r) a.data = .ok scores) :
    generateRiskReport a =
      .ok (specStoredReport a scores, specReturnedReport a scores) := by
  have hrowne : ∀ r ∈ a.data, r ≠ [] := by
    intro r hr h0
    apply hcne
    rw [← hcols r hr, h0]
    rfl
  have hde : dfEmpty a.data = false := by
    obtain ⟨r0, rest, hsplit⟩ := List.exists_cons_of_ne_nil hne
    have h0 : r0 ≠ [] := hrowne r0 (by rw [hsplit]; exact List.mem_cons_self r0 rest)
    rw [hsplit]
    simp [dfEmpty, List.isEmpty_iff, h0]
  have hslen : scores.length = a.data.length := mapExcept_ok_length hscores
  have hidslen :
      ((List.range a.data.length).map (fun i : Nat => Value.int (i + 1))).length =
        a.data.length := by simp
  have hfresh1 : ∀ r ∈ a.data, "customer_id" ∉ r.map Prod.fst := by
    intro r hr
    rw [hcols r hr]
    exact hcid
  have hkey1 : mapExcept (fun r => calculateRiskScore a r)
      (setCol a.data "customer_id"
        ((List.range a.data.length).map (fun i : Nat => Value.int (i + 1)))) =
      .ok scores := by
    rw [setCol_fresh _ _ _ hfresh1, mapExcept_map]
    have hcongr : ∀ p ∈ a.data.zip
        ((List.range a.data.length).map (fun i : Nat => Value.int (i + 1))),
        calculateRiskScore a (p.1 ++ [("customer_id", p.2)]) =
          calculateRiskScore a p.1 := by
      intro p hp
      exact riskScore_append_col a p.1 _ p.2
        (hrowne p.1 (List.of_mem_zip hp).1) hnorm
    rw [mapExcept_congr hcongr]
    have hzipfst : (a.data.zip
        ((List.range a.data.length).map (fun i : Nat => Value.int (i + 1)))).map
        Prod.fst = a.data :=
      List.map_fst_zip _ _ (by rw [hidslen])
    have := mapExcept_map (fun r => calculateRiskScore a r) (Prod.fst
      (α := Row) (β := Value)) (a.data.zip
        ((List.range a.data.length).map (fun i : Nat => Value.int (i + 1))))
    rw [hzipfst] at this
    rw [← this]
    exact hscores
  have hkey2 : mapExcept (fun s => determineRiskLevel a s) scores =
      .ok (scores.map (fun s => levelLoop s a.risk_levels)) :=
    mapExcept_ok_of_forall (classify_scores_ok a scores hscores)
  unfold generateRiskReport
  simp only [hde, Bool.false_eq_true, if_false, hkey1, hkey2,
    Bind.bind, Except.bind]
  rw [stored_frame_eq a scores hcols hcid hrs hrl hslen,
    returned_frame_eq a scores hne hcols hnodup hcid hrs hrl]
  rfl

/-- C7: on every well-formed non-empty record batch whose rows all score
successfully, `generate_risk_report` succeeds; its returned table has one
row per input row in input order, places the `customer_id` column first
followed by all original columns and then `risk_score` and `risk_level`,
assigns `customer_id` equal to the 1-based input row position, preserves
every original field value of each row, and fills `risk_level` by
classifying the row's computed score. -/
theorem report_rows_and_columns (a : Analyzer) (scores : List Int)
    (hne : a.data ≠ [])
    (hcne : dfColumns a.data ≠ [])
    (hcols : ∀ r ∈ a.data, r.map Prod.fst = dfColumns a.data)
    (hnodup : (dfColumns a.data).Nodup)
    (hcid : "customer_id" ∉ dfColumns a.data)
    (hrs : "risk_score" ∉ dfColumns a.data)
    (hrl : "risk_level" ∉ dfColumns a.data)
    (hnorm : ∀ p ∈ a.scoring_rules, normalize p.1 ≠ "customer_id")
    (hscores : mapExcept (fun r => calculateRiskScore a r) a.data = .ok scores) :
    generateRiskReport a =
      .ok (specStoredReport a scores, specReturnedReport a scores)
    ∧ (specReturnedReport a scores).length = a.data.length
    ∧ dfColumns (specReturnedReport a scores) =
        "customer_id" :: (dfColumns a.data ++ ["risk_score", "risk_level"])
    ∧ (∀ i, i < a.data.length →
        (specReturnedReport a scores).getD i [] =
          ("customer_id", Value.int (i + 1)) ::
            (a.data.getD i [] ++
              [("risk_score", Value.int (scores.getD i 0)),
               ("risk_level",
                 Value.str (levelLoop (scores.getD i 0) a.risk_levels))]))
    ∧ (∀ s ∈ scores, determineRiskLevel a s = .ok (levelLoop s a.risk_levels)) := by
  refine ⟨generateRiskReport_eq_spec a scores hne hcne hcols hnodup hcid hrs hrl
      hnorm hscores, ?_, dfColumns_specReturnedReport a scores hne hcols, ?_,
      classify_scores_ok a scores hscores⟩
  · simp [specReturnedReport]
  · intro i hi
    unfold specReturnedReport
    rw [getD_map_range _ hi]

/-- Witness for C7 at the two-row example table with scores 0 and 15. -/
theorem report_rows_and_columns_witness :
    generateRiskReport reportAnalyzer =
      .ok (specStoredReport reportAnalyzer [0, 15],
           specReturnedReport reportAnalyzer [0, 15]) :=
  (report_rows_and_columns reportAnalyzer [0, 15] (by decide) (by decide)
    (by decide) (by decide) (by decide) (by decide) (by decide) (by decide)
    (by decide)).1

/-- C10 counterexample: at a concrete one-row table the frame returned by
`generate_risk_report` is not the stored (mutated-in-place) frame — the
stored frame has `customer_id` appended at the end while the returned
frame is a fresh column-reordered selection with `customer_id` first. -/
theorem report_same_object_cex :
    generateRiskReport
      ⟨[[("age", .int 45)]],
       [("Age", .rlist
          [⟨some ageCond1, none, 15⟩, ⟨some ageCond2, none, 10⟩,
           ⟨some ageCond3, none, 5⟩])],
       pySortDesc exampleLevels⟩ =
      .ok ([[("age", Value.int 45), ("customer_id", Value.int 1),
             ("risk_score", Value.int 0), ("risk_level", Value.str "Low risk")]],
           [[("customer_id", Value.int 1), ("age", Value.int 45),
             ("risk_score", Value.int 0), ("risk_level", Value.str "Low risk")]])
    ∧ ([[("age", Value.int 45), ("customer_id", Value.int 1),
         ("risk_score", Value.int 0), ("risk_level", Value.str "Low risk")]] :
          DataFrame) ≠
        [[("customer_id", Value.int 1), ("age", Value.int 45),
          ("risk_score", Value.int 0), ("risk_level", Value.str "Low risk")]] := by
  decide

/-- C10 amended: `generate_risk_report` does enrich the analyzer's stored
table in place — after the call the stored frame consists of the original
rows, values unchanged, with `customer_id` (1-based position),
`risk_score` and `risk_level` appended at the end of each row — but the
returned table is a fresh column-reordered frame (with `customer_id`
moved to the front), not the stored one. -/
theorem report_in_place (a : Analyzer) (scores : List Int)
    (hne : a.data ≠ [])
    (hcne : dfColumns a.data ≠ [])
    (hcols : ∀ r ∈ a.data, r.map Prod.fst = dfColumns a.data)
    (hnodup : (dfColumns a.data).Nodup)
    (hcid : "customer_id" ∉ dfColumns a.data)
    (hrs : "risk_score" ∉ dfColumns a.data)
    (hrl : "risk_level" ∉ dfColumns a.data)
    (hnorm : ∀ p ∈ a.scoring_rules, normalize p.1 ≠ "customer_id")
    (hscores : mapExcept (fun r => calculateRiskScore a r) a.data = .ok scores) :
    generateRiskReport a =
      .ok (specStoredReport a scores, specReturnedReport a scores)
    ∧ (specStoredReport a scores).length = a.data.length
    ∧ (∀ i, i < a.data.length →
        (specStoredReport a scores).getD i [] =
          a.data.getD i [] ++
            [("customer_id", Value.int (i + 1)),
             ("risk_score", Value.int (scores.getD i 0)),
             ("risk_level",
               Value.str (levelLoop (scores.getD i 0) a.risk_levels))])
    ∧ dfColumns (specStoredReport a scores) =
        dfColumns a.data ++ ["customer_id", "risk_score", "risk_level"]
    ∧ specStoredReport a scores ≠ specReturnedReport a scores := by
  refine ⟨generateRiskReport_eq_spec a scores hne hcne hcols hnodup hcid hrs hrl
      hnorm hscores, ?_, ?_,
      dfColumns_specStoredReport a scores hne hcols, ?_⟩
  · simp [specStoredReport]
  · intro i hi
    unfold specStoredReport
    rw [getD_map_range _ hi]
  · intro h
    have hc := congrArg dfColumns h
    rw [dfColumns_specStoredReport a scores hne hcols,
      dfColumns_specReturnedReport a scores hne hcols] at hc
    obtain ⟨c0, cols', hsplit⟩ := List.exists_cons_of_ne_nil hcne
    rw [hsplit] at hc
    have hc0 : c0 = "customer_id" := by
      have := congrArg (fun l => l.headD "") hc
      simpa using this
    apply hcid
    rw [hsplit, hc0]
    exact List.mem_cons_self _ _

/-- Witness for C10 (amended): at the two-row example table the stored
frame and the returned frame differ. -/
theorem report_in_place_witness :
    specStoredReport reportAnalyzer [0, 15] ≠
      specReturnedReport reportAnalyzer [0, 15] :=
  (report_in_place reportAnalyzer [0, 15] (by decide) (by decide)
    (by decide) (by decide) (by decide) (by decide) (by decide) (by decide)
    (by decide)).2.2.2.2

end Pygroupf
